import Mathlib

/-!
Shallow embedding of `src/core/Peridigm_ContactManager.cpp` (PeridigmNS::ContactManager).

Modelling conventions, applied uniformly:

* The embedding is the view of a single rank.  An `Epetra_BlockMap` is a
  `BlockMap`: the ordered rank-local list of global IDs together with the
  per-element block sizes.  `LID` returns the local slot of a global ID
  (`none` models Epetra's -1 sentinel), `GID` the global ID of a local slot.
* An `Epetra_Vector` over a map is a `List Int` laid out in the map's
  first-point order.  The `double` payloads of the mothership vectors only
  ever hold either exact small integers (bond counts, global IDs cast to
  double) or opaque per-point field data that the ContactManager moves but
  never computes with, so an integer payload is a faithful stand-in; the
  three 3-component blocks of a three-dimensional vector are modelled as one
  opaque payload per point.
* `Import(..., Insert)` between two maps is `importInsert`: every destination
  element whose global ID exists in the source map receives the source value,
  all other destination elements keep their current value.
  `importInsertBlocks` is the same operation on variable-block data.
* `std::set<int>` is a duplicate-free insertion list (`setInsert`); only
  membership of the set is relevant to the claims, not its iteration order.
* `std::map<int, std::vector<int>>` is an association list
  (`mapLookup` / `mapGetCreate` / `mapAppend`); `operator[]` creates the
  entry before the contact-search retain loop appends to it, exactly as in
  the source.
* `TEUCHOS_TEST_FOR_EXCEPTION` / `TEUCHOS_TEST_FOR_EXCEPT_MSG` become
  `Except.error` with the source's message.
-/

/-- A rank-local Epetra_BlockMap: ordered global IDs plus per-element sizes. -/
structure BlockMap where
  globalIDs : List Int
  elementSizes : List Nat
deriving DecidableEq, Repr

/-- Index of the first occurrence of `g`, the local ID of Epetra's `LID`. -/
def lidIdx (g : Int) : List Int → Option Nat
  | [] => none
  | x :: xs => if x = g then some 0 else (lidIdx g xs).map (· + 1)

/-- `LID(g)`: local slot of global ID `g`, `none` for Epetra's -1. -/
def BlockMap.lidOpt (m : BlockMap) (g : Int) : Option Nat :=
  lidIdx g m.globalIDs

/-- `LID(g)` with the literal -1 sentinel of the C++ interface. -/
def BlockMap.lid (m : BlockMap) (g : Int) : Int :=
  match m.lidOpt g with
  | some k => (k : Int)
  | none => -1

/-- `GID(lid)`: global ID at local slot `lid` (-1 outside the map, as in Epetra). -/
def BlockMap.GID (m : BlockMap) (i : Nat) : Int :=
  m.globalIDs.getD i (-1)

/-- `MyGID(g)`. -/
def BlockMap.myGID (m : BlockMap) (g : Int) : Prop :=
  g ∈ m.globalIDs

instance (m : BlockMap) (g : Int) : Decidable (m.myGID g) := by
  unfold BlockMap.myGID; infer_instance

/-- `NumMyElements()`. -/
def BlockMap.numEl (m : BlockMap) : Nat :=
  m.globalIDs.length

/-- `ElementSize(lid)` (out-of-range reads, undefined behaviour in Epetra,
are modelled as 0). -/
def BlockMap.sizeAt (m : BlockMap) (i : Nat) : Nat :=
  m.elementSizes.getD i 0

/-- `FirstPointInElementList()[lid]`. -/
def BlockMap.firstPoint (m : BlockMap) (i : Nat) : Nat :=
  (m.elementSizes.take i).sum

/-- `NumMyPoints()`. -/
def BlockMap.numMyPoints (m : BlockMap) : Nat :=
  m.elementSizes.sum

/-- A map whose elements all have block size 1 (or, for the three-dimensional
maps, whose per-point payload is modelled as a single value). -/
def pointMap (gids : List Int) : BlockMap :=
  ⟨gids, gids.map (fun _ => 1)⟩

/-- A freshly constructed Epetra_Vector / MultiVector component (zeroed out). -/
def zeroVec (n : Nat) : List Int :=
  List.replicate n 0

/-- Pointwise sum of two equally laid-out vectors (`Update(1.0, x, 1.0)` /
an `Add`-combine export between identical maps). -/
def vecAdd (a b : List Int) : List Int :=
  List.zipWith (· + ·) a b

/-- `std::set<int>::insert`. -/
def setInsert (s : List Int) (x : Int) : List Int :=
  if x ∈ s then s else s ++ [x]

/-- `Import(dest, source)` followed by `dest.Import(src, importer, Insert)`
for size-1 (point) maps, on one rank: destination entries whose global ID the
source map owns receive the source value, the rest keep their current value. -/
def importInsert (srcMap : BlockMap) (src : List Int) (dstMap : BlockMap)
    (dst : List Int) : List Int :=
  (List.range dstMap.numEl).map (fun i =>
    match srcMap.lidOpt (dstMap.GID i) with
    | some j => src.getD j 0
    | none => dst.getD i 0)

/-- The block of variable-stride data belonging to local element `lid`. -/
def blockSlice (m : BlockMap) (data : List Int) (lid : Nat) : List Int :=
  (data.drop (m.firstPoint lid)).take (m.sizeAt lid)

/-- `Insert` import of variable-block data (the bond-list migration). -/
def importInsertBlocks (srcMap : BlockMap) (src : List Int) (dstMap : BlockMap)
    (dst : List Int) : List Int :=
  ((List.range dstMap.numEl).map (fun i =>
    match srcMap.lidOpt (dstMap.GID i) with
    | some j => blockSlice srcMap src j
    | none => blockSlice dstMap dst i)).flatten

/-- Lookup in a `std::map<int, std::vector<int>>`. -/
def mapLookup : List (Int × List Int) → Int → Option (List Int)
  | [], _ => none
  | p :: ps, g => if p.1 = g then some p.2 else mapLookup ps g

/-- `operator[]`: make sure key `g` has an entry (created empty if absent). -/
def mapGetCreate (m : List (Int × List Int)) (g : Int) : List (Int × List Int) :=
  if (mapLookup m g).isSome then m else m ++ [(g, [])]

/-- Append `xs` to the entry of key `g` (the `push_back` calls through the
reference returned by `operator[]`). -/
def mapAppend (m : List (Int × List Int)) (g : Int) (xs : List Int) :
    List (Int × List Int) :=
  m.map (fun p => if p.1 = g then (p.1, p.2 ++ xs) else p)

/-- Effectful loop body sequencing for the TEUCHOS-checked construction
loops: first failure aborts the whole construction. -/
def exceptMap {α β : Type} (f : α → Except String β) : List α → Except String (List β)
  | [] => Except.ok []
  | a :: as =>
    match f a with
    | Except.error e => Except.error e
    | Except.ok b =>
      match exceptMap f as with
      | Except.error e => Except.error e
      | Except.ok bs => Except.ok (b :: bs)

/-- PeridigmNS::NeighborhoodData: the owned local IDs and the count-prefixed
neighborhood list, kept as one segment (`count :: neighbor slots`) per owned
point; the published flat array is the concatenation of the segments. -/
structure NeighborhoodData where
  ownedIDs : List Int
  blocks : List (List Int)
deriving DecidableEq, Repr

/-- The flat `NeighborhoodList()` array. -/
def NeighborhoodData.flatList (nd : NeighborhoodData) : List Int :=
  nd.blocks.flatten

/-- `0 <= s < numEl`: local slot `s` resolves in map `m`. -/
def slotOK (m : BlockMap) (s : Int) : Bool :=
  decide (0 ≤ s) && decide (s.toNat < m.numEl)

/-- Every neighbor slot (each segment minus its leading count) and every
owned ID of the table resolves in map `m`. -/
def NeighborhoodData.validSlots (nd : NeighborhoodData) (m : BlockMap) : Bool :=
  nd.blocks.all (fun b => b.tail.all (fun s => slotOK m s)) &&
    nd.ownedIDs.all (fun s => slotOK m s)

/-!  ContactManager::contactSearch (lines 494-547).
The external pieces (Zoltan load balancing, PDNEIGH::NeighborhoodList) enter
as data: `gids` is `neighList.get_owned_gids()` (the rebalanced decomposition's
owned global IDs, the same list the rebalanced owned map is built from) and
`flat` is the count-prefixed `neighList.get_neighborhood()` array produced by
the range query. -/

/-- The stl::list of global IDs point `g` is bonded to, read from the
rebalanced bond map and the migrated neighbor-global-ID vector
(lines 521-532); empty when `g` has no bond-map entry. -/
def bondedNeighborsOf (bondMap : BlockMap) (nbrGIDs : List Int) (g : Int) : List Int :=
  match bondMap.lidOpt g with
  | some lid => (nbrGIDs.drop (bondMap.firstPoint lid)).take (bondMap.sizeAt lid)
  | none => []

/-- The retain loop over one point's search neighborhood (lines 537-545):
keep each neighbor not found among the bonded neighbors, and record
every retained neighbor the rebalanced owned map does not own in the
off-processor contact set. -/
def retainLoop (ownedMap : BlockMap) (bonded : List Int) :
    List Int → List Int → List Int → List Int × List Int
  | [], acc, offProc => (acc, offProc)
  | n :: rest, acc, offProc =>
    if n ∈ bonded then
      retainLoop ownedMap bonded rest acc offProc
    else
      retainLoop ownedMap bonded rest (acc ++ [n])
        (if ownedMap.lidOpt n = none then setInsert offProc n else offProc)

/-- The outer loop of contactSearch over the owned points (lines 516-546),
consuming the count-prefixed search neighborhood exactly as
`searchListIndex` walks it. -/
def contactSearchLoop (ownedMap bondMap : BlockMap) (nbrGIDs : List Int) :
    List Int → List Int → List (Int × List Int) → List Int →
      List (Int × List Int) × List Int
  | [], _, cn, offProc => (cn, offProc)
  | g :: gs, flat, cn, offProc =>
    contactSearchLoop ownedMap bondMap nbrGIDs gs
      (flat.drop (1 + (flat.headD 0).toNat))
      (mapAppend (mapGetCreate cn g) g
        (retainLoop ownedMap (bondedNeighborsOf bondMap nbrGIDs g)
          ((flat.drop 1).take (flat.headD 0).toNat) [] offProc).1)
      (retainLoop ownedMap (bondedNeighborsOf bondMap nbrGIDs g)
        ((flat.drop 1).take (flat.headD 0).toNat) [] offProc).2

/-- ContactManager::contactSearch: starts from the empty neighbor map and the
empty off-processor contact set handed in by rebalance (lines 325-327). -/
def contactSearch (ownedMap bondMap : BlockMap) (nbrGIDs gids flat : List Int) :
    List (Int × List Int) × List Int :=
  contactSearchLoop ownedMap bondMap nbrGIDs gids flat [] []

/-- The neighbor IDs the range query returned for point `q`: the segment of
the count-prefixed array that the search loop reads for `q`. -/
def searchNeighborsOf : List Int → List Int → Int → List Int
  | [], _, _ => []
  | g :: gs, flat, q =>
    if q = g then (flat.drop 1).take (flat.headD 0).toNat
    else searchNeighborsOf gs (flat.drop (1 + (flat.headD 0).toNat)) q

/-!  ContactManager::rebalance, ghost discovery and overlap construction
(lines 313-350). -/

/-- Lines 313-319: the off-processor bonded-neighbor IDs — every entry of the
migrated neighbor-global-ID vector that the rebalanced owned map does not
own, collected into a set. -/
def ghostBondIDs (ownedGIDs nbrGIDs : List Int) : List Int :=
  nbrGIDs.foldl (fun s v => if v ∈ ownedGIDs then s else setInsert s v) []

/-- Lines 329-332: union of the contact search's off-processor IDs into the
ghost set. -/
def allGhostIDs (ownedGIDs : List Int) (bondMap : BlockMap)
    (nbrGIDs searchFlat : List Int) : List Int :=
  (contactSearch (pointMap ownedGIDs) bondMap nbrGIDs ownedGIDs searchFlat).2.foldl
    (fun s v => setInsert s v) (ghostBondIDs ownedGIDs nbrGIDs)

/-- Lines 334-350: the rebalanced overlap map's global IDs — the owned IDs
followed by the ghost set. -/
def overlapGIDs (ownedGIDs : List Int) (bondMap : BlockMap)
    (nbrGIDs searchFlat : List Int) : List Int :=
  ownedGIDs ++ allGhostIDs ownedGIDs bondMap nbrGIDs searchFlat

/-!  ContactManager::createRebalancedNeighborhoodData (lines 571-618). -/

/-- One owned point's segment of the bond neighborhood table: the bond count
followed by the overlap-map local ID of each bonded neighbor, each checked by
TEUCHOS_TEST_FOR_EXCEPTION; `[0]` for a point without a bond-map entry
(lines 598-614). -/
def bondNeighborhoodBlock (overlap bondMap : BlockMap) (nbrGIDs : List Int)
    (g : Int) : Except String (List Int) :=
  match bondMap.lidOpt g with
  | none => Except.ok [0]
  | some lid =>
    match exceptMap (fun iN =>
        match overlap.lidOpt (nbrGIDs.getD (bondMap.firstPoint lid + iN) 0) with
        | some l => Except.ok (l : Int)
        | none =>
          Except.error "Invalid index into rebalancedOneDimensionalOverlapMap")
      (List.range (bondMap.sizeAt lid)) with
    | Except.error e => Except.error e
    | Except.ok slots => Except.ok ((bondMap.sizeAt lid : Int) :: slots)

/-- The rebalanced bond neighborhood table (lines 571-618): owned local IDs
into the overlap map (checked), then one segment per owned point. -/
def createRebalancedNeighborhoodData (ownedMap overlap bondMap : BlockMap)
    (nbrGIDs : List Int) : Except String NeighborhoodData :=
  match exceptMap (fun g =>
      match overlap.lidOpt g with
      | some l => Except.ok (l : Int)
      | none =>
        Except.error "Invalid index into rebalancedOneDimensionalOverlapMap")
    ownedMap.globalIDs with
  | Except.error e => Except.error e
  | Except.ok owned =>
    match exceptMap (bondNeighborhoodBlock overlap bondMap nbrGIDs)
        ownedMap.globalIDs with
    | Except.error e => Except.error e
    | Except.ok blocks => Except.ok ⟨owned, blocks⟩

/-!  ContactManager::createRebalancedContactNeighborhoodData (lines 621-663). -/

/-- One owned point's segment of the contact neighborhood table: the source
requires an entry in contactNeighborGlobalIDs for the point, then writes the
neighbor count followed by `LID(neighbor)` for each retained neighbor with no
further check (line 658 writes the raw LID). -/
def contactNeighborhoodBlock (overlap : BlockMap) (cn : List (Int × List Int))
    (g : Int) : Except String (List Int) :=
  match mapLookup cn g with
  | none => Except.error "Invalid index into contactNeighborGlobalIDs"
  | some nbrs => Except.ok ((nbrs.length : Int) :: nbrs.map (fun n => overlap.lid n))

/-- The rebalanced contact neighborhood table (lines 621-663). -/
def createRebalancedContactNeighborhoodData (cn : List (Int × List Int))
    (ownedMap overlap : BlockMap) : Except String NeighborhoodData :=
  match exceptMap (fun g =>
      match overlap.lidOpt g with
      | some l => Except.ok (l : Int)
      | none =>
        Except.error "Invalid index into rebalancedOneDimensionalOverlapMap")
    ownedMap.globalIDs with
  | Except.error e => Except.error e
  | Except.ok owned =>
    match exceptMap (contactNeighborhoodBlock overlap cn) ownedMap.globalIDs with
    | Except.error e => Except.error e
    | Except.ok blocks => Except.ok ⟨owned, blocks⟩

/-!  ContactManager::createRebalancedBondMap (lines 444-487). -/

/-- Lines 450-456: the per-point bond counts recorded in the old (current
contact) decomposition.  The vector starts zeroed; for a point whose global ID
has a bond-map entry the source stores `bondContactMap->ElementSize(i)` where
`i` is the local index in the one-dimensional contact map — NOT the checked
`bondMapLocalID` — so the recorded value is the size of whatever bond-map
element sits at index `i` (an out-of-range read, undefined behaviour in
Epetra, is modelled as 0). -/
def recordedBondCounts (old1D bondMap : BlockMap) : List Int :=
  (List.range old1D.numEl).map (fun i =>
    match bondMap.lidOpt (old1D.GID i) with
    | some _ => (bondMap.sizeAt i : Int)
    | none => 0)

/-- The count the claim (and the spec's step 1 of the bond-migration
algorithm) describes: the element size of the point's own entry in the old
bond map, 0 for a point with no entry.  Stated from the spec's words for
comparison with `recordedBondCounts`. -/
def recordedBondCountsSpec (old1D bondMap : BlockMap) : List Int :=
  (List.range old1D.numEl).map (fun i =>
    match bondMap.lidOpt (old1D.GID i) with
    | some lid => (bondMap.sizeAt lid : Int)
    | none => 0)

/-- Result of the compaction loop of lines 462-479. -/
structure BondMapCompaction where
  entries : List (Int × Int)
  numMyElements : Nat
  numPointsWithZeroNeighbors : Nat
deriving DecidableEq, Repr

/-- One iteration of the loop over the rebalanced owned points (lines
469-479): a point with a positive migrated count is written at the next
compacted position (`i - numPointsWithZeroNeighbors`, i.e. appended), a point
with no bonds only bumps the zero counter. -/
def bondCompactStep (acc : BondMapCompaction) (p : Int × Int) : BondMapCompaction :=
  if p.2 > 0 then
    ⟨acc.entries ++ [p], acc.numMyElements + 1, acc.numPointsWithZeroNeighbors⟩
  else
    ⟨acc.entries, acc.numMyElements, acc.numPointsWithZeroNeighbors + 1⟩

/-- The compaction loop over (global ID, migrated bond count) pairs. -/
def bondCompact (ps : List (Int × Int)) : BondMapCompaction :=
  ps.foldl bondCompactStep ⟨[], 0, 0⟩

/-- ContactManager::createRebalancedBondMap: record the old-decomposition
bond counts, move them into the rebalanced decomposition with an
Insert-combine import into a zero-initialized vector, then build the bond map from the
points with positive migrated counts.  Returns the map and the number of
dropped (zero-bond) points. -/
def createRebalancedBondMap (old1D bondMap : BlockMap) (rebalGIDs : List Int) :
    BlockMap × Nat :=
  let counts := recordedBondCounts old1D bondMap
  let rebalancedCounts :=
    importInsert old1D counts (pointMap rebalGIDs) (zeroVec rebalGIDs.length)
  let c := bondCompact (rebalGIDs.zip rebalancedCounts)
  (⟨c.entries.map Prod.fst, c.entries.map (fun p => p.2.toNat)⟩,
    c.numPointsWithZeroNeighbors)

/-!  ContactManager::createRebalancedNeighborGlobalIDList (lines 549-569). -/

/-- Lines 552-562: walk the current bond neighborhood table and translate
each neighbor local ID into a global ID through the current overlap contact
map, producing the neighbor-global-ID vector over the old bond map. -/
def neighborGlobalIDList (nd : NeighborhoodData) (overlapMap : BlockMap) : List Int :=
  (nd.blocks.map (fun b => b.tail.map (fun l => overlapMap.GID l.toNat))).flatten

/-!  ContactManager::rebalance, the full cycle (lines 290-403). -/

/-- Everything the full rebalance cycle publishes (the source's local results
before they are stored into the member pointers at lines 352-398). -/
structure RebalResult where
  overlapMap : BlockMap
  bondND : NeighborhoodData
  contactND : NeighborhoodData
  contactNeighborGlobalIDs : List (Int × List Int)
  offProcessorIDs : List Int
  newBlockIDs : List Int
  newVolume : List Int
  newY : List Int
  newV : List Int
  newForce : List Int
  newScratch : List Int
deriving DecidableEq, Repr

/-- Lines 313-376 of rebalance, after the external partitioner produced the
rebalanced owned IDs (`ownedGIDs`), the bond map and neighbor-global-ID
vector were migrated, and the range query produced `searchFlat`: build the
ghost set, the overlap map, both neighborhood tables, and import all six
mothership components into the rebalanced decomposition (Insert imports into
freshly constructed, zero-initialized multivectors, lines 363-376). -/
def rebalanceCore (ownedGIDs : List Int) (bondMap : BlockMap)
    (nbrGIDs searchFlat : List Int) (old1D old3D : BlockMap)
    (oldBlockIDs oldVolume oldY oldV oldForce oldScratch : List Int) :
    Except String RebalResult :=
  match createRebalancedNeighborhoodData (pointMap ownedGIDs)
      (pointMap (overlapGIDs ownedGIDs bondMap nbrGIDs searchFlat))
      bondMap nbrGIDs with
  | Except.error e => Except.error e
  | Except.ok bondND =>
    match createRebalancedContactNeighborhoodData
        (contactSearch (pointMap ownedGIDs) bondMap nbrGIDs ownedGIDs searchFlat).1
        (pointMap ownedGIDs)
        (pointMap (overlapGIDs ownedGIDs bondMap nbrGIDs searchFlat)) with
    | Except.error e => Except.error e
    | Except.ok contactND =>
      Except.ok
        ⟨pointMap (overlapGIDs ownedGIDs bondMap nbrGIDs searchFlat),
         bondND,
         contactND,
         (contactSearch (pointMap ownedGIDs) bondMap nbrGIDs ownedGIDs searchFlat).1,
         allGhostIDs ownedGIDs bondMap nbrGIDs searchFlat,
         importInsert old1D oldBlockIDs (pointMap ownedGIDs) (zeroVec ownedGIDs.length),
         importInsert old1D oldVolume (pointMap ownedGIDs) (zeroVec ownedGIDs.length),
         importInsert old3D oldY (pointMap ownedGIDs) (zeroVec ownedGIDs.length),
         importInsert old3D oldV (pointMap ownedGIDs) (zeroVec ownedGIDs.length),
         importInsert old3D oldForce (pointMap ownedGIDs) (zeroVec ownedGIDs.length),
         importInsert old3D oldScratch (pointMap ownedGIDs) (zeroVec ownedGIDs.length)⟩

/-- The ContactManager state the rebalance entry point reads and replaces:
the published contact maps, both neighborhood tables, and the six mothership
component vectors. -/
structure CMState where
  oneDimensionalContactMap : BlockMap
  threeDimensionalContactMap : BlockMap
  oneDimensionalOverlapContactMap : BlockMap
  bondContactMap : BlockMap
  neighborhoodData : NeighborhoodData
  contactNeighborhoodData : NeighborhoodData
  contactBlockIDs : List Int
  contactVolume : List Int
  contactY : List Int
  contactV : List Int
  contactContactForce : List Int
  contactScratch : List Int
deriving DecidableEq, Repr

/-- The two external collective services rebalance consumes: the load-balanced
decomposition's owned global IDs (PDNEIGH::getLoadBalancedDiscretization) and
the count-prefixed range-query neighborhood (PDNEIGH::NeighborhoodList). -/
structure RebalanceExternals where
  decompGIDs : List Int
  searchFlat : List Int
deriving DecidableEq, Repr

/-- The full cycle taken when the step count is on cadence (lines 295-403):
migrate the bond map and neighbor lists into the decomposition produced by
the partitioner, run `rebalanceCore`, and store every rebalanced structure
into the manager state. -/
def rebalanceFullCycle (ext : RebalanceExternals) (st : CMState) :
    Except String CMState :=
  let bm := createRebalancedBondMap st.oneDimensionalContactMap st.bondContactMap
    ext.decompGIDs
  let oldNbrGIDs := neighborGlobalIDList st.neighborhoodData
    st.oneDimensionalOverlapContactMap
  let nbrGIDs := importInsertBlocks st.bondContactMap oldNbrGIDs bm.1
    (zeroVec bm.1.numMyPoints)
  match rebalanceCore ext.decompGIDs bm.1 nbrGIDs ext.searchFlat
      st.oneDimensionalContactMap st.threeDimensionalContactMap
      st.contactBlockIDs st.contactVolume st.contactY st.contactV
      st.contactContactForce st.contactScratch with
  | Except.error e => Except.error e
  | Except.ok r =>
    Except.ok
      ⟨pointMap ext.decompGIDs,
       pointMap ext.decompGIDs,
       r.overlapMap,
       bm.1,
       r.bondND,
       r.contactND,
       r.newBlockIDs,
       r.newVolume,
       r.newY,
       r.newV,
       r.newForce,
       r.newScratch⟩

/-- ContactManager::rebalance(int step), lines 290-293: a step count not
divisible by the configured Search Frequency returns immediately; otherwise
the full cycle runs. -/
def rebalance (contactRebalanceFrequency : Int) (ext : RebalanceExternals)
    (st : CMState) (step : Int) : Except String CMState :=
  if step % contactRebalanceFrequency ≠ 0 then Except.ok st
  else rebalanceFullCycle ext st

/-!  ContactManager::loadAllMothershipData (lines 229-240) and
ContactManager::exportData (lines 278-288). -/

/-- The six contact mothership component vectors. -/
structure MothershipData where
  contactBlockIDs : List Int
  contactVolume : List Int
  contactY : List Int
  contactV : List Int
  contactContactForce : List Int
  contactScratch : List Int
deriving DecidableEq, Repr

/-- loadAllMothershipData: Insert-import block IDs, volume, positions and
velocities from the mothership maps into the contact mothership maps, then
zero the contact-force and scratch components. -/
def loadAllMothershipData (map1 map3 cmap1 cmap3 : BlockMap)
    (blockIds volume y v : List Int) (m : MothershipData) : MothershipData :=
  ⟨importInsert map1 blockIds cmap1 m.contactBlockIDs,
   importInsert map1 volume cmap1 m.contactVolume,
   importInsert map3 y cmap3 m.contactY,
   importInsert map3 v cmap3 m.contactV,
   zeroVec cmap3.numEl,
   zeroVec cmap3.numEl⟩

/-- ContactManager::exportData.  Each contact block's
`exportData(contactScratch, ..., Add)` deposits that block's per-point force
contribution into the just-zeroed scratch vector; the block's internal force
computation is outside this translation unit, so `blockContribs` carries, per
contact block, the vector the block adds (its contribution accumulated by
global ID onto the zeroed scratch).  The function zeroes the internal contact
force accumulator, sums the block contributions into it, and finally performs
`contactForce->Export(contactContactForce, importer, Insert)`: on the
reversed importer this writes each summed value over the caller's entry with the same
global ID (Insert combine mode, not an accumulation).  Returns (internal
contact force, final scratch, caller's force buffer). -/
def exportLoop (n : Nat) (blockContribs : List (List Int))
    (start : List Int × List Int) : List Int × List Int :=
  blockContribs.foldl
    (fun acc c => (vecAdd acc.1 (vecAdd (zeroVec n) c), vecAdd (zeroVec n) c))
    start

def exportData (contactMap mothershipMap : BlockMap)
    (blockContribs : List (List Int))
    (callerForce prevForce prevScratch : List Int) :
    List Int × List Int × List Int :=
  ((exportLoop contactMap.numEl blockContribs
      (zeroVec contactMap.numEl, prevScratch)).1,
   (exportLoop contactMap.numEl blockContribs
      (zeroVec contactMap.numEl, prevScratch)).2,
   importInsert contactMap
     (exportLoop contactMap.numEl blockContribs
       (zeroVec contactMap.numEl, prevScratch)).1
     mothershipMap callerForce)

/-!  ContactManager::initialize (lines 154-227): per-block horizon lookup and
contact-model parameter assembly.  Horizon values and model parameters are
doubles the manager only stores and passes through, so they are carried as
opaque integer payloads. -/

/-- Association-list lookup standing for `std::map::find` /
`Teuchos::ParameterList::isParameter` + `get`. -/
def getParam : List (String × Int) → String → Option Int
  | [], _ => none
  | p :: ps, k => if p.1 = k then some p.2 else getParam ps k

/-- `Teuchos::ParameterList::set`: replace the value of an existing key,
otherwise append the new entry. -/
def setParam (ps : List (String × Int)) (k : String) (v : Int) :
    List (String × Int) :=
  if (getParam ps k).isSome then
    ps.map (fun p => if p.1 = k then (p.1, v) else p)
  else ps ++ [(k, v)]

/-- Lines 166-176: resolve the horizon for a named block from the supplied
horizon-value map — the block's own entry if present, else the "default"
entry, else the fatal configuration error naming the block. -/
def horizonForBlock (blockHorizonValues : List (String × Int))
    (blockName : String) : Except String Int :=
  match getParam blockHorizonValues blockName with
  | some v => Except.ok v
  | none =>
    match getParam blockHorizonValues "default" with
    | some v => Except.ok v
    | none =>
      Except.error ("**** Error, no Horizon parameter supplied for block "
        ++ blockName ++ " and no default block parameter list provided.")

/-- Lines 179-187: take the first sublist of the "Models" parameter list
(`models` is the name/parameter-list sequence of that sublist; the sublist is
required, so an empty sequence has no `begin()` entry and is modelled as the
configuration error), reject a user-supplied "Horizon" parameter, set the
block's horizon, and default "Friction Coefficient" to 0.0 when absent. -/
def buildContactModelParams (models : List (String × List (String × Int)))
    (blockHorizon : Int) : Except String (List (String × Int)) :=
  match models with
  | [] => Except.error "sublist Models is empty"
  | (_, ps) :: _ =>
    if (getParam ps "Horizon").isSome then
      Except.error "**** Error, Horizon is an invalid contact model parameter."
    else if (getParam (setParam ps "Horizon" blockHorizon)
        "Friction Coefficient").isSome then
      Except.ok (setParam ps "Horizon" blockHorizon)
    else
      Except.ok (setParam (setParam ps "Horizon" blockHorizon)
        "Friction Coefficient" 0)

/-- The "Friction Coefficient" entry of an assembled model parameter list. -/
def frictionOf (r : Except String (List (String × Int))) : Option Int :=
  match r with
  | Except.ok ps => getParam ps "Friction Coefficient"
  | Except.error _ => none

/-- The "Horizon" entry of an assembled model parameter list. -/
def horizonOf (r : Except String (List (String × Int))) : Option Int :=
  match r with
  | Except.ok ps => getParam ps "Horizon"
  | Except.error _ => none

/-- `Except.isOk`. -/
def isOkE {α : Type} : Except String α → Bool
  | Except.ok _ => true
  | Except.error _ => false

/-! Decidable equality on Except-valued results, to evaluate the embedding at
concrete inputs. -/
deriving instance DecidableEq for Except

/-!  A small concrete rank used to exercise the rebalance pipeline: owned
points 1 and 2 after rebalancing, point 1 bonded to off-rank point 3
(bond map ⟨[1],[1]⟩, migrated neighbor-ID vector [3]), and a range query
that returns one neighbor (the off-rank point 4) for point 1 and none for
point 2 (count-prefixed array [1, 4, 0]).  The pre-rebalance maps own the
same two points; the old mothership holds block IDs [11,12], volumes [1,1],
positions [5,6], velocities [0,0], a non-zero contact force [7,0], and
scratch [9,0]. -/
def exInput : Except String RebalResult :=
  rebalanceCore [1, 2] ⟨[1], [1]⟩ [3] [1, 4, 0] (pointMap [1, 2])
    (pointMap [1, 2]) [11, 12] [1, 1] [5, 6] [0, 0] [7, 0] [9, 0]

/-- The value `exInput` computes to. -/
def exResult : RebalResult :=
  ⟨⟨[1, 2, 3, 4], [1, 1, 1, 1]⟩, ⟨[0, 1], [[1, 2], [0]]⟩,
   ⟨[0, 1], [[1, 3], [0]]⟩, [(1, [4]), (2, [])], [3, 4],
   [11, 12], [1, 1], [5, 6], [0, 0], [7, 0], [9, 0]⟩

/-- A concrete manager state for exercising the rebalance entry point: one
owned point 1 with no bonds and empty neighborhood tables. -/
def exState : CMState :=
  ⟨pointMap [1], pointMap [1], pointMap [1], ⟨[], []⟩, ⟨[0], [[0]]⟩,
   ⟨[0], [[0]]⟩, [11], [1], [5], [0], [0], [0]⟩

/-- Concrete external inputs for the rebalance entry point. -/
def exExternals : RebalanceExternals :=
  ⟨[1], [0]⟩

/-!  Lemmas about the Epetra map and container primitives. -/

theorem lidIdx_isSome_iff (g : Int) (l : List Int) :
    (lidIdx g l).isSome ↔ g ∈ l := by
  induction l with
  | nil => simp [lidIdx]
  | cons x xs ih =>
    by_cases h : x = g
    · subst h; simp [lidIdx]
    · have hne : g ≠ x := fun hh => h hh.symm
      simp only [lidIdx, if_neg h, Option.isSome_map', List.mem_cons]
      simp [ih, hne]

theorem lidIdx_none_iff (g : Int) (l : List Int) :
    lidIdx g l = none ↔ g ∉ l := by
  rw [← Option.not_isSome_iff_eq_none, not_iff_not]
  exact lidIdx_isSome_iff g l

theorem lidIdx_lt (g : Int) (l : List Int) (k : Nat) :
    lidIdx g l = some k → k < l.length := by
  induction l generalizing k with
  | nil => simp [lidIdx]
  | cons x xs ih =>
    by_cases h : x = g
    · subst h
      simp only [lidIdx, if_pos rfl]
      rintro h2
      cases h2
      simp
    · simp only [lidIdx, if_neg h]
      cases h2 : lidIdx g xs with
      | none => simp
      | some k2 =>
        simp only [Option.map_some']
        rintro h3
        cases h3
        simpa [Nat.succ_lt_succ_iff] using ih k2 h2

theorem lidOpt_isSome_iff (m : BlockMap) (g : Int) :
    (m.lidOpt g).isSome ↔ g ∈ m.globalIDs :=
  lidIdx_isSome_iff g m.globalIDs

theorem lidOpt_none_iff (m : BlockMap) (g : Int) :
    m.lidOpt g = none ↔ g ∉ m.globalIDs :=
  lidIdx_none_iff g m.globalIDs

theorem lidOpt_lt (m : BlockMap) (g : Int) (k : Nat) :
    m.lidOpt g = some k → k < m.numEl :=
  lidIdx_lt g m.globalIDs k

theorem slotOK_of_lidOpt (m : BlockMap) (g : Int) (k : Nat)
    (h : m.lidOpt g = some k) : slotOK m (k : Int) = true := by
  simp [slotOK, lidOpt_lt m g k h]

theorem lid_slotOK_of_mem (m : BlockMap) (g : Int) (h : g ∈ m.globalIDs) :
    slotOK m (m.lid g) = true := by
  rcases Option.isSome_iff_exists.mp ((lidOpt_isSome_iff m g).mpr h) with ⟨k, hk⟩
  rw [BlockMap.lid, hk]
  exact slotOK_of_lidOpt m g k hk

theorem mem_setInsert (s : List Int) (y x : Int) :
    x ∈ setInsert s y ↔ x ∈ s ∨ x = y := by
  unfold setInsert
  by_cases h : y ∈ s
  · rw [if_pos h]
    constructor
    · exact Or.inl
    · rintro (h1 | rfl) <;> [exact h1; exact h]
  · rw [if_neg h]
    simp

theorem mem_foldl_setInsert (l init : List Int) (x : Int) :
    x ∈ l.foldl (fun s v => setInsert s v) init ↔ x ∈ init ∨ x ∈ l := by
  induction l generalizing init with
  | nil => simp
  | cons a l ih =>
    rw [List.foldl_cons, ih]
    rw [mem_setInsert]
    simp only [List.mem_cons]
    tauto

theorem mem_ghostBondIDs_aux (owned : List Int) (l init : List Int) (x : Int) :
    x ∈ l.foldl (fun s v => if v ∈ owned then s else setInsert s v) init ↔
      x ∈ init ∨ (x ∈ l ∧ x ∉ owned) := by
  induction l generalizing init with
  | nil => simp
  | cons a l ih =>
    by_cases h : a ∈ owned
    · rw [List.foldl_cons, if_pos h, ih]
      constructor
      · rintro (h1 | ⟨h2, h3⟩)
        · exact Or.inl h1
        · exact Or.inr ⟨List.mem_cons_of_mem _ h2, h3⟩
      · rintro (h1 | ⟨h2, h3⟩)
        · exact Or.inl h1
        · rcases List.mem_cons.mp h2 with h4 | h4
          · exact absurd (h4 ▸ h) h3
          · exact Or.inr ⟨h4, h3⟩
    · rw [List.foldl_cons, if_neg h, ih, mem_setInsert]
      constructor
      · rintro ((h1 | rfl) | ⟨h2, h3⟩)
        · exact Or.inl h1
        · exact Or.inr ⟨List.mem_cons_self _ _, h⟩
        · exact Or.inr ⟨List.mem_cons_of_mem _ h2, h3⟩
      · rintro (h1 | ⟨h2, h3⟩)
        · exact Or.inl (Or.inl h1)
        · rcases List.mem_cons.mp h2 with h4 | h4
          · exact Or.inl (Or.inr h4)
          · exact Or.inr ⟨h4, h3⟩

theorem mem_ghostBondIDs (ownedGIDs nbrGIDs : List Int) (x : Int) :
    x ∈ ghostBondIDs ownedGIDs nbrGIDs ↔ x ∈ nbrGIDs ∧ x ∉ ownedGIDs := by
  unfold ghostBondIDs
  rw [mem_ghostBondIDs_aux]
  simp

theorem getD_replicate_zero (n i : Nat) :
    (List.replicate n (0 : Int)).getD i 0 = 0 := by
  induction n generalizing i with
  | zero => simp [List.getD]
  | succ n ih => cases i <;> simp [List.replicate, ih]

/-!  Lemmas about the contactNeighborGlobalIDs association map. -/

theorem mapLookup_append (a b : List (Int × List Int)) (g : Int) :
    mapLookup (a ++ b) g =
      match mapLookup a g with
      | some xs => some xs
      | none => mapLookup b g := by
  induction a with
  | nil => simp [mapLookup]
  | cons p ps ih => by_cases h : p.1 = g <;> simp [mapLookup, h, ih]

theorem mapLookup_getCreate_self (m : List (Int × List Int)) (g : Int) :
    mapLookup (mapGetCreate m g) g = some ((mapLookup m g).getD []) := by
  unfold mapGetCreate
  cases h : mapLookup m g with
  | some xs => simp [h]
  | none => simp [h, mapLookup_append, mapLookup]

theorem mapLookup_getCreate_ne (m : List (Int × List Int)) (g g' : Int)
    (h : g' ≠ g) : mapLookup (mapGetCreate m g) g' = mapLookup m g' := by
  unfold mapGetCreate
  cases h2 : mapLookup m g with
  | some xs => simp
  | none =>
    rw [if_neg (by simp [h2]), mapLookup_append]
    cases h3 : mapLookup m g' with
    | some xs => simp
    | none =>
      have h5 : ¬ g = g' := fun hh => h hh.symm
      simp [mapLookup, h3, h5]

theorem mapLookup_mapAppend_self (m : List (Int × List Int)) (g : Int)
    (xs : List Int) :
    mapLookup (mapAppend m g xs) g = (mapLookup m g).map (· ++ xs) := by
  induction m with
  | nil => simp [mapAppend, mapLookup]
  | cons p ps ih =>
    by_cases h : p.1 = g
    · simp [mapAppend, mapLookup, h]
    · simpa [mapAppend, mapLookup, h] using ih

theorem mapLookup_mapAppend_ne (m : List (Int × List Int)) (g g' : Int)
    (xs : List Int) (h : g' ≠ g) :
    mapLookup (mapAppend m g xs) g' = mapLookup m g' := by
  induction m with
  | nil => simp [mapAppend, mapLookup]
  | cons p ps ih =>
    have h5 : ¬ g = g' := fun hh => h hh.symm
    by_cases h2 : p.1 = g
    · simpa [mapAppend, mapLookup, h2, h5] using ih
    · by_cases h4 : p.1 = g'
      · simp [mapAppend, mapLookup, h2, h4, h]
      · simpa [mapAppend, mapLookup, h2, h4] using ih

theorem mapLookup_update_self (m : List (Int × List Int)) (g : Int)
    (xs : List Int) :
    mapLookup (mapAppend (mapGetCreate m g) g xs) g =
      some ((mapLookup m g).getD [] ++ xs) := by
  rw [mapLookup_mapAppend_self, mapLookup_getCreate_self]
  simp

theorem mapLookup_mem (m : List (Int × List Int)) (g : Int) (xs : List Int) :
    mapLookup m g = some xs → (g, xs) ∈ m := by
  induction m with
  | nil => intro h; simp [mapLookup] at h
  | cons p ps ih =>
    intro h
    obtain ⟨p1, p2⟩ := p
    by_cases h2 : p1 = g
    · subst h2
      simp [mapLookup] at h
      subst h
      exact List.mem_cons_self _ _
    · simp only [mapLookup, if_neg h2] at h
      exact List.mem_cons_of_mem _ (ih h)

theorem mapGetCreate_val_mem (m : List (Int × List Int)) (g : Int)
    (p : Int × List Int) (h : p ∈ mapGetCreate m g) : p ∈ m ∨ p = (g, []) := by
  unfold mapGetCreate at h
  by_cases h2 : (mapLookup m g).isSome
  · rw [if_pos h2] at h
    exact Or.inl h
  · rw [if_neg h2] at h
    rcases List.mem_append.mp h with h3 | h3
    · exact Or.inl h3
    · simpa using Or.inr (List.mem_singleton.mp h3)

theorem mapAppend_val_mem (m : List (Int × List Int)) (g : Int) (xs : List Int)
    (p : Int × List Int) (hp : p ∈ mapAppend m g xs) (n : Int) (hn : n ∈ p.2) :
    (∃ q ∈ m, n ∈ q.2) ∨ n ∈ xs := by
  rcases List.mem_map.mp hp with ⟨q, hq, hq2⟩
  subst hq2
  by_cases h : q.1 = g
  · rw [if_pos h] at hn
    change n ∈ q.2 ++ xs at hn
    rcases List.mem_append.mp hn with h2 | h2
    · exact Or.inl ⟨q, hq, h2⟩
    · exact Or.inr h2
  · rw [if_neg h] at hn
    exact Or.inl ⟨q, hq, hn⟩

/-!  Lemmas about the retain loop of contactSearch. -/

theorem retainLoop_fst (om : BlockMap) (bonded : List Int) :
    ∀ found acc offProc, (retainLoop om bonded found acc offProc).1 =
      acc ++ found.filter (fun n => decide (n ∉ bonded)) := by
  intro found
  induction found with
  | nil => intro acc off; simp [retainLoop]
  | cons n rest ih =>
    intro acc off
    by_cases h : n ∈ bonded
    · simp [retainLoop, h, ih]
    · simp [retainLoop, h, ih]

theorem retainLoop_snd_mem (om : BlockMap) (bonded : List Int) :
    ∀ found acc offProc x, x ∈ (retainLoop om bonded found acc offProc).2 ↔
      x ∈ offProc ∨ (x ∈ found ∧ x ∉ bonded ∧ om.lidOpt x = none) := by
  intro found
  induction found with
  | nil => intro acc off x; simp [retainLoop]
  | cons n rest ih =>
    intro acc off x
    by_cases h : n ∈ bonded
    · rw [retainLoop, if_pos h, ih]
      constructor
      · rintro (h1 | ⟨h2, h3, h4⟩)
        · exact Or.inl h1
        · exact Or.inr ⟨List.mem_cons_of_mem _ h2, h3, h4⟩
      · rintro (h1 | ⟨h2, h3, h4⟩)
        · exact Or.inl h1
        · rcases List.mem_cons.mp h2 with h5 | h5
          · exact absurd (h5 ▸ h) h3
          · exact Or.inr ⟨h5, h3, h4⟩
    · by_cases h2 : om.lidOpt n = none
      · rw [retainLoop, if_neg h, if_pos h2, ih]
        constructor
        · rintro (h3 | ⟨h4, h5, h6⟩)
          · rcases (mem_setInsert off n x).mp h3 with h7 | rfl
            · exact Or.inl h7
            · exact Or.inr ⟨List.mem_cons_self _ _, h, h2⟩
          · exact Or.inr ⟨List.mem_cons_of_mem _ h4, h5, h6⟩
        · rintro (h3 | ⟨h4, h5, h6⟩)
          · exact Or.inl ((mem_setInsert off n x).mpr (Or.inl h3))
          · rcases List.mem_cons.mp h4 with h7 | h7
            · exact Or.inl ((mem_setInsert off n x).mpr (Or.inr h7))
            · exact Or.inr ⟨h7, h5, h6⟩
      · rw [retainLoop, if_neg h, if_neg h2, ih]
        constructor
        · rintro (h3 | ⟨h4, h5, h6⟩)
          · exact Or.inl h3
          · exact Or.inr ⟨List.mem_cons_of_mem _ h4, h5, h6⟩
        · rintro (h3 | ⟨h4, h5, h6⟩)
          · exact Or.inl h3
          · rcases List.mem_cons.mp h4 with h7 | h7
            · exact absurd (h7 ▸ h6) h2
            · exact Or.inr ⟨h7, h5, h6⟩

/-!  Lemmas about the contact search loop. -/

theorem csl_lookup_not_mem (om bm : BlockMap) (nb : List Int) :
    ∀ gs flat cn off g, g ∉ gs →
      mapLookup (contactSearchLoop om bm nb gs flat cn off).1 g = mapLookup cn g := by
  intro gs
  induction gs with
  | nil => intro flat cn off g _; simp [contactSearchLoop]
  | cons g' gs' ih =>
    intro flat cn off g hg
    rw [List.mem_cons] at hg
    push_neg at hg
    rw [contactSearchLoop, ih _ _ _ _ hg.2, mapLookup_mapAppend_ne _ _ _ _ hg.1,
      mapLookup_getCreate_ne _ _ _ hg.1]

theorem csl_lookup_mem (om bm : BlockMap) (nb : List Int) :
    ∀ gs flat cn off g, gs.Nodup → g ∈ gs →
      mapLookup (contactSearchLoop om bm nb gs flat cn off).1 g =
        some ((mapLookup cn g).getD [] ++
          (searchNeighborsOf gs flat g).filter
            (fun n => decide (n ∉ bondedNeighborsOf bm nb g))) := by
  intro gs
  induction gs with
  | nil => intro flat cn off g _ hg; simp at hg
  | cons g' gs' ih =>
    intro flat cn off g hnd hg
    rw [List.nodup_cons] at hnd
    rcases List.mem_cons.mp hg with rfl | hmem
    · rw [contactSearchLoop, csl_lookup_not_mem om bm nb gs' _ _ _ g hnd.1,
        mapLookup_update_self, retainLoop_fst, searchNeighborsOf, if_pos rfl]
      simp
    · have hne : g ≠ g' := fun hh => hnd.1 (hh ▸ hmem)
      rw [contactSearchLoop, ih _ _ _ g hnd.2 hmem,
        mapLookup_mapAppend_ne _ _ _ _ hne, mapLookup_getCreate_ne _ _ _ hne,
        searchNeighborsOf, if_neg hne]

theorem csl_off_mono (om bm : BlockMap) (nb : List Int) :
    ∀ gs flat cn off x, x ∈ off →
      x ∈ (contactSearchLoop om bm nb gs flat cn off).2 := by
  intro gs
  induction gs with
  | nil => intro flat cn off x hx; simpa [contactSearchLoop] using hx
  | cons g' gs' ih =>
    intro flat cn off x hx
    rw [contactSearchLoop]
    exact ih _ _ _ x ((retainLoop_snd_mem om _ _ _ _ x).mpr (Or.inl hx))

theorem csl_off_not_owned (om bm : BlockMap) (nb : List Int) :
    ∀ gs flat cn off x, x ∈ (contactSearchLoop om bm nb gs flat cn off).2 →
      x ∈ off ∨ om.lidOpt x = none := by
  intro gs
  induction gs with
  | nil =>
    intro flat cn off x hx
    simp only [contactSearchLoop] at hx
    exact Or.inl hx
  | cons g' gs' ih =>
    intro flat cn off x hx
    rw [contactSearchLoop] at hx
    rcases ih _ _ _ x hx with h1 | h1
    · rcases (retainLoop_snd_mem om _ _ _ _ x).mp h1 with h2 | ⟨_, _, h4⟩
      · exact Or.inl h2
      · exact Or.inr h4
    · exact Or.inr h1

theorem csl_cn_vals (om bm : BlockMap) (nb : List Int) :
    ∀ gs flat cn off,
      (∀ p ∈ cn, ∀ n ∈ p.2, n ∈ om.globalIDs ∨ n ∈ off) →
      ∀ p ∈ (contactSearchLoop om bm nb gs flat cn off).1, ∀ n ∈ p.2,
        n ∈ om.globalIDs ∨ n ∈ (contactSearchLoop om bm nb gs flat cn off).2 := by
  intro gs
  induction gs with
  | nil =>
    intro flat cn off hinv p hp n hn
    simp only [contactSearchLoop] at hp ⊢
    exact hinv p hp n hn
  | cons g' gs' ih =>
    intro flat cn off hinv
    rw [contactSearchLoop]
    apply ih
    intro p hp n hn
    rcases mapAppend_val_mem _ _ _ p hp n hn with ⟨q, hq, hq2⟩ | hnr
    · rcases mapGetCreate_val_mem _ _ q hq with hq3 | rfl
      · rcases hinv q hq3 n hq2 with h1 | h1
        · exact Or.inl h1
        · exact Or.inr ((retainLoop_snd_mem om _ _ _ _ n).mpr (Or.inl h1))
      · simp at hq2
    · rw [retainLoop_fst] at hnr
      simp only [List.nil_append, List.mem_filter, decide_eq_true_eq] at hnr
      cases h2 : om.lidOpt n with
      | some k => exact Or.inl ((lidOpt_isSome_iff om n).mp (by simp [h2]))
      | none =>
        exact Or.inr ((retainLoop_snd_mem om _ _ _ _ n).mpr
          (Or.inr ⟨hnr.1, hnr.2, h2⟩))

/-!  Lemmas about the TEUCHOS-checked construction loops. -/

theorem exceptMap_ok_mem {α β : Type} (f : α → Except String β) :
    ∀ (l : List α) (ys : List β), exceptMap f l = Except.ok ys →
      ∀ y ∈ ys, ∃ x ∈ l, f x = Except.ok y := by
  intro l
  induction l with
  | nil =>
    intro ys h y hy
    simp only [exceptMap] at h
    cases h
    simp at hy
  | cons a as ih =>
    intro ys h y hy
    rw [exceptMap] at h
    split at h
    · exact absurd h (by simp)
    · next b heq =>
      split at h
      · exact absurd h (by simp)
      · next bs heq2 =>
        cases h
        rcases List.mem_cons.mp hy with rfl | hy2
        · exact ⟨a, List.mem_cons_self _ _, heq⟩
        · rcases ih bs heq2 y hy2 with ⟨x, hx, hfx⟩
          exact ⟨x, List.mem_cons_of_mem _ hx, hfx⟩

theorem bondNeighborhoodBlock_ok (ov bm : BlockMap) (nb : List Int) (g : Int)
    (b : List Int) (h : bondNeighborhoodBlock ov bm nb g = Except.ok b) :
    ∀ s ∈ b.tail, slotOK ov s = true := by
  unfold bondNeighborhoodBlock at h
  split at h
  · cases h
    intro s hs
    simp at hs
  · next lid hl =>
    split at h
    · exact absurd h (by simp)
    · next slots heq =>
      cases h
      intro s hs
      rw [List.tail_cons] at hs
      rcases exceptMap_ok_mem _ _ _ heq s hs with ⟨iN, _, hfi⟩
      cases h2 : ov.lidOpt (nb.getD (bm.firstPoint lid + iN) 0) with
      | none =>
        rw [h2] at hfi
        simp at hfi
      | some k =>
        rw [h2] at hfi
        simp only [Except.ok.injEq] at hfi
        rw [← hfi]
        exact slotOK_of_lidOpt ov _ k h2

theorem createRebalancedNeighborhoodData_ok (own ov bm : BlockMap)
    (nb : List Int) (nd : NeighborhoodData)
    (h : createRebalancedNeighborhoodData own ov bm nb = Except.ok nd) :
    nd.validSlots ov = true := by
  unfold createRebalancedNeighborhoodData at h
  split at h
  · exact absurd h (by simp)
  · next owned heq1 =>
    split at h
    · exact absurd h (by simp)
    · next blocks heq2 =>
      cases h
      simp only [NeighborhoodData.validSlots, Bool.and_eq_true, List.all_eq_true]
      constructor
      · intro b hb
        rcases exceptMap_ok_mem _ _ _ heq2 b hb with ⟨g, _, hg⟩
        exact bondNeighborhoodBlock_ok ov bm nb g b hg
      · intro s hs
        rcases exceptMap_ok_mem _ _ _ heq1 s hs with ⟨g, _, hg⟩
        cases h2 : ov.lidOpt g with
        | none =>
          rw [h2] at hg
          simp at hg
        | some k =>
          rw [h2] at hg
          simp only [Except.ok.injEq] at hg
          rw [← hg]
          exact slotOK_of_lidOpt ov g k h2

theorem contactNeighborhoodBlock_ok (ov : BlockMap) (cn : List (Int × List Int))
    (hvals : ∀ p ∈ cn, ∀ n ∈ p.2, n ∈ ov.globalIDs) (g : Int) (b : List Int)
    (h : contactNeighborhoodBlock ov cn g = Except.ok b) :
    ∀ s ∈ b.tail, slotOK ov s = true := by
  unfold contactNeighborhoodBlock at h
  split at h
  · exact absurd h (by simp)
  · next nbrs heq =>
    cases h
    intro s hs
    rw [List.tail_cons] at hs
    rcases List.mem_map.mp hs with ⟨n, hn, rfl⟩
    exact lid_slotOK_of_mem ov n (hvals (g, nbrs) (mapLookup_mem cn g nbrs heq) n hn)

theorem createRebalancedContactNeighborhoodData_ok (own ov : BlockMap)
    (cn : List (Int × List Int))
    (hvals : ∀ p ∈ cn, ∀ n ∈ p.2, n ∈ ov.globalIDs) (nd : NeighborhoodData)
    (h : createRebalancedContactNeighborhoodData cn own ov = Except.ok nd) :
    nd.validSlots ov = true := by
  unfold createRebalancedContactNeighborhoodData at h
  split at h
  · exact absurd h (by simp)
  · next owned heq1 =>
    split at h
    · exact absurd h (by simp)
    · next blocks heq2 =>
      cases h
      simp only [NeighborhoodData.validSlots, Bool.and_eq_true, List.all_eq_true]
      constructor
      · intro b hb
        rcases exceptMap_ok_mem _ _ _ heq2 b hb with ⟨g, _, hg⟩
        exact contactNeighborhoodBlock_ok ov cn hvals g b hg
      · intro s hs
        rcases exceptMap_ok_mem _ _ _ heq1 s hs with ⟨g, _, hg⟩
        cases h2 : ov.lidOpt g with
        | none =>
          rw [h2] at hg
          simp at hg
        | some k =>
          rw [h2] at hg
          simp only [Except.ok.injEq] at hg
          rw [← hg]
          exact slotOK_of_lidOpt ov g k h2

/-!  The claims. -/

/-- Claim C5: for every step number not divisible by the configured cadence
(Search Frequency), rebalance(step) returns immediately and leaves every
published map, table and mothership vector of the manager state exactly as it
was before the call. -/
theorem rebalance_noop_off_cadence (freq : Int) (ext : RebalanceExternals)
    (st : CMState) (step : Int) (h : step % freq ≠ 0) :
    rebalance freq ext st step = Except.ok st := by
  rw [rebalance, if_pos h]

theorem rebalance_noop_off_cadence_witness :
    rebalance 10 exExternals exState 3 = Except.ok exState :=
  rebalance_noop_off_cadence 10 exExternals exState 3 (by decide)

/-- Claim C9: during initialize, a contact block whose name has no entry in
the supplied horizon-value map gets the "default" entry when one exists, and
otherwise a fatal error naming the block is raised — never a silent zero
horizon. -/
theorem horizon_default_or_fatal (m : List (String × Int)) (name : String)
    (h : getParam m name = none) :
    horizonForBlock m name =
      match getParam m "default" with
      | some v => Except.ok v
      | none =>
        Except.error ("**** Error, no Horizon parameter supplied for block "
          ++ name ++ " and no default block parameter list provided.") := by
  rw [horizonForBlock, h]

theorem horizon_default_or_fatal_witness :
    horizonForBlock [("default", 4)] "block_7" = Except.ok 4 ∧
      horizonForBlock [] "block_7" =
        Except.error ("**** Error, no Horizon parameter supplied for block "
          ++ "block_7" ++ " and no default block parameter list provided.") :=
  ⟨horizon_default_or_fatal [("default", 4)] "block_7" rfl,
   horizon_default_or_fatal [] "block_7" rfl⟩

/-- Claim C3 (the code deviates): createRebalancedBondMap records, for an
owned point with a bond-map entry, `bondContactMap->ElementSize(i)` at the
one-dimensional-map index `i` instead of at the point's own bond-map local ID.
On a rank owning points 1, 2, 3 where point 1 has no bonds and points 2, 3
have bond-map entries of sizes 5 and 7, the count recorded for point 2
(index 1) is 7 — point 3's entry size — while point 2's own entry size is 5. -/
theorem bond_count_uses_wrong_index :
    (recordedBondCounts (pointMap [1, 2, 3]) ⟨[2, 3], [5, 7]⟩).getD 1 0 = 7 ∧
      (recordedBondCountsSpec (pointMap [1, 2, 3]) ⟨[2, 3], [5, 7]⟩).getD 1 0 = 5 ∧
      recordedBondCounts (pointMap [1, 2, 3]) ⟨[2, 3], [5, 7]⟩ ≠
        recordedBondCountsSpec (pointMap [1, 2, 3]) ⟨[2, 3], [5, 7]⟩ := by
  decide

theorem getParam_append (a b : List (String × Int)) (k : String) :
    getParam (a ++ b) k =
      match getParam a k with
      | some v => some v
      | none => getParam b k := by
  induction a with
  | nil => simp [getParam]
  | cons p ps ih => by_cases h : p.1 = k <;> simp [getParam, h, ih]

/-- Claim C10: when the first configured contact-model parameter list omits
"Friction Coefficient", initialize sets it to 0.0 before creating the block's
contact model, so every contact model is constructed with a defined friction
coefficient; an explicitly supplied value passes through unchanged, the block
horizon is set, and a user-supplied "Horizon" parameter in the model list is
a fatal error. -/
theorem contact_model_friction_default (nm : String) (ps : List (String × Int))
    (rest : List (String × List (String × Int))) (bh x : Int)
    (hH : getParam ps "Horizon" = none) :
    isOkE (buildContactModelParams ((nm, ps) :: rest) bh) = true ∧
      frictionOf (buildContactModelParams ((nm, ps) :: rest) bh) =
        some ((getParam ps "Friction Coefficient").getD 0) ∧
      horizonOf (buildContactModelParams ((nm, ps) :: rest) bh) = some bh ∧
      buildContactModelParams ((nm, ("Horizon", x) :: ps) :: rest) bh =
        Except.error "**** Error, Horizon is an invalid contact model parameter." := by
  have hps1 : setParam ps "Horizon" bh = ps ++ [("Horizon", bh)] := by
    rw [setParam, if_neg (by simp [hH])]
  have hfr : getParam (ps ++ [("Horizon", bh)]) "Friction Coefficient" =
      getParam ps "Friction Coefficient" := by
    rw [getParam_append]
    cases hg : getParam ps "Friction Coefficient" <;> simp [getParam]
  have hhz : getParam (ps ++ [("Horizon", bh)]) "Horizon" = some bh := by
    rw [getParam_append, hH]
    simp [getParam]
  have hbuild : buildContactModelParams ((nm, ps) :: rest) bh =
      (if (getParam (setParam ps "Horizon" bh) "Friction Coefficient").isSome then
        Except.ok (setParam ps "Horizon" bh)
      else
        Except.ok (setParam (setParam ps "Horizon" bh)
          "Friction Coefficient" 0)) := by
    rw [buildContactModelParams, if_neg (by simp [hH])]
  refine ⟨?_, ?_, ?_, ?_⟩
  · rw [hbuild]
    cases hg : (getParam (setParam ps "Horizon" bh) "Friction Coefficient").isSome <;>
      simp [isOkE]
  · rw [hbuild, hps1]
    by_cases hg : (getParam ps "Friction Coefficient").isSome
    · rw [if_pos (by rw [hfr]; exact hg)]
      rcases Option.isSome_iff_exists.mp hg with ⟨v, hv⟩
      simp [frictionOf, hfr, hv]
    · rw [if_neg (by rw [hfr]; exact hg)]
      have hnone : getParam ps "Friction Coefficient" = none :=
        Option.not_isSome_iff_eq_none.mp hg
      have hset : setParam (ps ++ [("Horizon", bh)]) "Friction Coefficient" 0 =
          (ps ++ [("Horizon", bh)]) ++ [("Friction Coefficient", 0)] := by
        rw [setParam, if_neg (by simp [hfr, hnone])]
      rw [hset]
      simp [frictionOf, getParam_append, hfr, hnone, getParam]
  · rw [hbuild, hps1]
    by_cases hg : (getParam ps "Friction Coefficient").isSome
    · rw [if_pos (by rw [hfr]; exact hg)]
      simp [horizonOf, hhz]
    · rw [if_neg (by rw [hfr]; exact hg)]
      have hnone : getParam ps "Friction Coefficient" = none :=
        Option.not_isSome_iff_eq_none.mp hg
      have hset : setParam (ps ++ [("Horizon", bh)]) "Friction Coefficient" 0 =
          (ps ++ [("Horizon", bh)]) ++ [("Friction Coefficient", 0)] := by
        rw [setParam, if_neg (by simp [hfr, hnone])]
      rw [hset]
      simp [horizonOf, getParam_append, hhz, hH, getParam]
  · rw [buildContactModelParams]
    simp [getParam]

theorem contact_model_friction_default_witness :
    isOkE (buildContactModelParams
        [("Short Range Force", [("Contact Radius", 3)])] 2) = true ∧
      frictionOf (buildContactModelParams
        [("Short Range Force", [("Contact Radius", 3)])] 2) =
        some ((getParam [("Contact Radius", 3)] "Friction Coefficient").getD 0) ∧
      horizonOf (buildContactModelParams
        [("Short Range Force", [("Contact Radius", 3)])] 2) = some 2 ∧
      buildContactModelParams
        [("Short Range Force", ("Horizon", 9) :: [("Contact Radius", 3)])] 2 =
        Except.error "**** Error, Horizon is an invalid contact model parameter." :=
  contact_model_friction_default "Short Range Force" [("Contact Radius", 3)] [] 2 9 rfl

theorem length_filter_add_length_not (p : Int × Int → Bool)
    (l : List (Int × Int)) :
    (l.filter p).length + (l.filter (fun a => !(p a))).length = l.length := by
  induction l with
  | nil => rfl
  | cons a l ih => by_cases h : p a <;> simp [List.filter_cons, h] <;> omega

theorem bondCompact_foldl (ps : List (Int × Int)) :
    ∀ acc : BondMapCompaction, ps.foldl bondCompactStep acc =
      ⟨acc.entries ++ ps.filter (fun p => decide (0 < p.2)),
       acc.numMyElements + (ps.filter (fun p => decide (0 < p.2))).length,
       acc.numPointsWithZeroNeighbors +
         (ps.filter (fun p => !decide (0 < p.2))).length⟩ := by
  induction ps with
  | nil => intro acc; simp
  | cons p ps ih =>
    intro acc
    by_cases h : 0 < p.2
    · rw [List.foldl_cons, bondCompactStep, if_pos h, ih]
      simp [List.filter_cons, h]
      omega
    · rw [List.foldl_cons, bondCompactStep, if_neg h, ih]
      simp [List.filter_cons, h]
      omega

/-- Claim C4: the rebalanced bond map receives an entry for exactly the
points of the rebalanced owned map whose migrated bond count is positive, in
order and with element size equal to the migrated count; zero-count points
are only tallied in numPointsWithZeroNeighbors, and the resulting bond map
contains no zero-length element. -/
theorem bond_map_positive_counts (ps : List (Int × Int)) (old1D bm : BlockMap)
    (gids : List Int) :
    (bondCompact ps).entries = ps.filter (fun p => decide (0 < p.2)) ∧
      (bondCompact ps).numMyElements =
        (ps.filter (fun p => decide (0 < p.2))).length ∧
      (bondCompact ps).numMyElements +
        (bondCompact ps).numPointsWithZeroNeighbors = ps.length ∧
      (bondCompact ps).entries.all (fun p => decide (0 < p.2)) = true ∧
      (createRebalancedBondMap old1D bm gids).1.elementSizes.all
        (fun s => decide (0 < s)) = true := by
  have hc := bondCompact_foldl ps ⟨[], 0, 0⟩
  refine ⟨?_, ?_, ?_, ?_, ?_⟩
  · rw [bondCompact, hc]
    simp
  · rw [bondCompact, hc]
    simp
  · rw [bondCompact, hc]
    simpa using length_filter_add_length_not (fun p => decide (0 < p.2)) ps
  · rw [bondCompact, hc]
    simp only [List.all_eq_true]
    intro p hp
    simp only [List.nil_append, List.mem_filter] at hp
    exact hp.2
  · rw [createRebalancedBondMap]
    simp only [List.all_eq_true, List.mem_map, bondCompact, bondCompact_foldl]
    rintro s ⟨p, hp, rfl⟩
    simp only [List.nil_append, List.mem_filter, decide_eq_true_eq] at hp
    simp only [decide_eq_true_eq]
    omega

/-- Claim C1: for every owned point P of the rebalanced decomposition, a
neighbor ID returned by the range query is retained into P's contact
neighbor list if and only if it does not occur among the bonded global IDs
read for P from the rebalanced bond map. -/
theorem contact_search_excludes_bonded (om bm : BlockMap)
    (nb gids flat : List Int) (g N : Int) (hnd : gids.Nodup) (hg : g ∈ gids) :
    N ∈ (mapLookup (contactSearch om bm nb gids flat).1 g).getD [] ↔
      (N ∈ searchNeighborsOf gids flat g ∧ N ∉ bondedNeighborsOf bm nb g) := by
  rw [contactSearch, csl_lookup_mem om bm nb gids flat [] [] g hnd hg]
  simp [mapLookup, List.mem_filter]

theorem contact_search_excludes_bonded_witness :
    4 ∈ (mapLookup (contactSearch (pointMap [1, 2]) ⟨[1], [1]⟩ [3] [1, 2]
        [1, 4, 0]).1 1).getD [] ↔
      (4 ∈ searchNeighborsOf [1, 2] [1, 4, 0] 1 ∧
        4 ∉ bondedNeighborsOf ⟨[1], [1]⟩ [3] 1) :=
  contact_search_excludes_bonded (pointMap [1, 2]) ⟨[1], [1]⟩ [3] [1, 2]
    [1, 4, 0] 1 4 (by decide) (by decide)

/-- Claim C2: when the full rebalance pipeline succeeds, every neighbor
local-slot index written into the bond Neighborhood Table or the contact
Neighborhood Table (and every owned local ID) resolves to a valid entry of
the final rebalanced overlap map; an unresolved global ID during bond-table
construction surfaces as the fatal `Except.error` instead of a published
table. -/
theorem rebalance_tables_resolve (ownedGIDs : List Int) (bondMap : BlockMap)
    (nbrGIDs searchFlat : List Int) (old1D old3D : BlockMap)
    (bIDs vol y v f s : List Int) (r : RebalResult)
    (h : rebalanceCore ownedGIDs bondMap nbrGIDs searchFlat old1D old3D
      bIDs vol y v f s = Except.ok r) :
    r.bondND.validSlots r.overlapMap = true ∧
      r.contactND.validSlots r.overlapMap = true := by
  unfold rebalanceCore at h
  split at h
  · exact absurd h (by simp)
  · next bondND heqB =>
    split at h
    · exact absurd h (by simp)
    · next contactND heqC =>
      cases h
      constructor
      · exact createRebalancedNeighborhoodData_ok _ _ _ _ _ heqB
      · refine createRebalancedContactNeighborhoodData_ok _ _ _ ?_ _ heqC
        intro p hp n hn
        rw [contactSearch] at hp
        rcases csl_cn_vals (pointMap ownedGIDs) bondMap nbrGIDs ownedGIDs
            searchFlat [] [] (by intro q hq; simp at hq) p hp n hn with h1 | h1
        · exact List.mem_append.mpr (Or.inl h1)
        · refine List.mem_append.mpr (Or.inr ?_)
          rw [allGhostIDs]
          refine (mem_foldl_setInsert _ _ n).mpr (Or.inr ?_)
          rw [contactSearch]
          exact h1

theorem rebalance_tables_resolve_witness :
    exResult.bondND.validSlots exResult.overlapMap = true ∧
      exResult.contactND.validSlots exResult.overlapMap = true :=
  rebalance_tables_resolve [1, 2] ⟨[1], [1]⟩ [3] [1, 4, 0] (pointMap [1, 2])
    (pointMap [1, 2]) [11, 12] [1, 1] [5, 6] [0, 0] [7, 0] [9, 0] exResult
    (by decide)

/-- Claim C6: after rebalance, the rebalanced overlap map is the owned IDs
followed by the ghost set, and no global ID in the ghost set is owned by the
rank — an ID enters the off-processor set only when the rebalanced owned map
does not own it. -/
theorem overlap_owned_ghost_disjoint (ownedGIDs : List Int)
    (bondMap : BlockMap) (nbrGIDs searchFlat : List Int) (old1D old3D : BlockMap)
    (bIDs vol y v f s : List Int) (r : RebalResult)
    (h : rebalanceCore ownedGIDs bondMap nbrGIDs searchFlat old1D old3D
      bIDs vol y v f s = Except.ok r) :
    r.overlapMap.globalIDs = ownedGIDs ++ r.offProcessorIDs ∧
      r.offProcessorIDs.all (fun g => decide (g ∉ ownedGIDs)) = true := by
  unfold rebalanceCore at h
  split at h
  · exact absurd h (by simp)
  · next bondND heqB =>
    split at h
    · exact absurd h (by simp)
    · next contactND heqC =>
      cases h
      refine ⟨rfl, ?_⟩
      simp only [List.all_eq_true, decide_eq_true_eq]
      intro x hx
      rw [allGhostIDs] at hx
      rcases (mem_foldl_setInsert _ _ x).mp hx with h1 | h1
      · exact ((mem_ghostBondIDs ownedGIDs nbrGIDs x).mp h1).2
      · rw [contactSearch] at h1
        rcases csl_off_not_owned (pointMap ownedGIDs) bondMap nbrGIDs
            ownedGIDs searchFlat [] [] x h1 with h2 | h2
        · simp at h2
        · exact (lidOpt_none_iff (pointMap ownedGIDs) x).mp h2

theorem overlap_owned_ghost_disjoint_witness :
    exResult.overlapMap.globalIDs = [1, 2] ++ exResult.offProcessorIDs ∧
      exResult.offProcessorIDs.all
        (fun g => decide (g ∉ ([1, 2] : List Int))) = true :=
  overlap_owned_ghost_disjoint [1, 2] ⟨[1], [1]⟩ [3] [1, 4, 0] (pointMap [1, 2])
    (pointMap [1, 2]) [11, 12] [1, 1] [5, 6] [0, 0] [7, 0] [9, 0] exResult
    (by decide)

/-- Claim C7 as stated is false on the code: with a non-zero pre-rebalance
contact force [7, 0], the DataMigration phase of the full cycle produces the
migrated force [7, 0] in the new decomposition, not a zeroed buffer — the
force and scratch multivector components are Insert-imported together with
positions, velocities, volumes and block IDs (lines 370-376), and nothing in
rebalance zeroes them. -/
theorem rebalance_force_not_zeroed :
    exInput = Except.ok exResult ∧ exResult.newForce = [7, 0] ∧
      ¬ exResult.newForce.all (fun z => decide (z = 0)) = true := by
  decide

/-- Claim C7 (amended): when rebalance performs a full cycle, the
DataMigration phase moves positions, velocities, volumes and block IDs from
the old owned decomposition into the new one via Insert imports into freshly
constructed (zero-initialized) vectors, and migrates the transient
contact-force and scratch components the same way rather than zeroing them;
migrating an all-zero buffer yields an all-zero buffer, and the zeroing of
force and scratch happens in loadAllMothershipData, not in rebalance. -/
theorem rebalance_migrates_mothership (ownedGIDs : List Int)
    (bondMap : BlockMap) (nbrGIDs searchFlat : List Int)
    (old1D old3D : BlockMap) (bIDs vol y v f s : List Int) (r : RebalResult)
    (m1 m3 c1 c3 : BlockMap) (bi vo yy vv : List Int) (md : MothershipData)
    (h : rebalanceCore ownedGIDs bondMap nbrGIDs searchFlat old1D old3D
      bIDs vol y v f s = Except.ok r) :
    r.newBlockIDs =
        importInsert old1D bIDs (pointMap ownedGIDs) (zeroVec ownedGIDs.length) ∧
      r.newVolume =
        importInsert old1D vol (pointMap ownedGIDs) (zeroVec ownedGIDs.length) ∧
      r.newY =
        importInsert old3D y (pointMap ownedGIDs) (zeroVec ownedGIDs.length) ∧
      r.newV =
        importInsert old3D v (pointMap ownedGIDs) (zeroVec ownedGIDs.length) ∧
      r.newForce =
        importInsert old3D f (pointMap ownedGIDs) (zeroVec ownedGIDs.length) ∧
      r.newScratch =
        importInsert old3D s (pointMap ownedGIDs) (zeroVec ownedGIDs.length) ∧
      (importInsert old3D (zeroVec old3D.numEl) (pointMap ownedGIDs)
        (zeroVec ownedGIDs.length)).all (fun z => decide (z = 0)) = true ∧
      (loadAllMothershipData m1 m3 c1 c3 bi vo yy vv md).contactContactForce =
        zeroVec c3.numEl ∧
      (loadAllMothershipData m1 m3 c1 c3 bi vo yy vv md).contactScratch =
        zeroVec c3.numEl := by
  unfold rebalanceCore at h
  split at h
  · exact absurd h (by simp)
  · next bondND heqB =>
    split at h
    · exact absurd h (by simp)
    · next contactND heqC =>
      cases h
      refine ⟨rfl, rfl, rfl, rfl, rfl, rfl, ?_, rfl, rfl⟩
      simp only [importInsert, List.all_eq_true]
      intro z hz
      rcases List.mem_map.mp hz with ⟨i, _, rfl⟩
      cases h2 : old3D.lidOpt ((pointMap ownedGIDs).GID i) <;>
        simp [h2, zeroVec, getD_replicate_zero]

theorem rebalance_migrates_mothership_witness :
    exResult.newBlockIDs = importInsert (pointMap [1, 2]) [11, 12]
        (pointMap [1, 2]) (zeroVec ([1, 2] : List Int).length) ∧
      exResult.newVolume = importInsert (pointMap [1, 2]) [1, 1]
        (pointMap [1, 2]) (zeroVec ([1, 2] : List Int).length) ∧
      exResult.newY = importInsert (pointMap [1, 2]) [5, 6]
        (pointMap [1, 2]) (zeroVec ([1, 2] : List Int).length) ∧
      exResult.newV = importInsert (pointMap [1, 2]) [0, 0]
        (pointMap [1, 2]) (zeroVec ([1, 2] : List Int).length) ∧
      exResult.newForce = importInsert (pointMap [1, 2]) [7, 0]
        (pointMap [1, 2]) (zeroVec ([1, 2] : List Int).length) ∧
      exResult.newScratch = importInsert (pointMap [1, 2]) [9, 0]
        (pointMap [1, 2]) (zeroVec ([1, 2] : List Int).length) ∧
      (importInsert (pointMap [1, 2]) (zeroVec (pointMap [1, 2]).numEl)
        (pointMap [1, 2]) (zeroVec ([1, 2] : List Int).length)).all
          (fun z => decide (z = 0)) = true ∧
      (loadAllMothershipData (pointMap [1]) (pointMap [1]) (pointMap [1])
        (pointMap [1]) [11] [1] [5] [0]
        ⟨[11], [1], [5], [0], [0], [0]⟩).contactContactForce =
        zeroVec (pointMap [1]).numEl ∧
      (loadAllMothershipData (pointMap [1]) (pointMap [1]) (pointMap [1])
        (pointMap [1]) [11] [1] [5] [0]
        ⟨[11], [1], [5], [0], [0], [0]⟩).contactScratch =
        zeroVec (pointMap [1]).numEl :=
  rebalance_migrates_mothership [1, 2] ⟨[1], [1]⟩ [3] [1, 4, 0]
    (pointMap [1, 2]) (pointMap [1, 2]) [11, 12] [1, 1] [5, 6] [0, 0] [7, 0]
    [9, 0] exResult (pointMap [1]) (pointMap [1]) (pointMap [1]) (pointMap [1])
    [11] [1] [5] [0] ⟨[11], [1], [5], [0], [0], [0]⟩ (by decide)

theorem vecAdd_getD (a : List Int) : ∀ (b : List Int) (j : Nat),
    j < a.length → j < b.length →
      (vecAdd a b).getD j 0 = a.getD j 0 + b.getD j 0 := by
  induction a with
  | nil => intro b j hja _; simp at hja
  | cons x xs ih =>
    intro b j hja hjb
    cases b with
    | nil => simp at hjb
    | cons yh ys =>
      cases j with
      | zero => simp [vecAdd]
      | succ j =>
        simpa [vecAdd] using ih ys j (by simpa using hja) (by simpa using hjb)

theorem exportLoop_spec (n : Nat) (bc : List (List Int)) :
    ∀ F s0, F.length = n → (∀ c ∈ bc, c.length = n) →
      (exportLoop n bc (F, s0)).1.length = n ∧
      ∀ j, j < n → (exportLoop n bc (F, s0)).1.getD j 0 =
        F.getD j 0 + (bc.map (fun c => c.getD j 0)).sum := by
  induction bc with
  | nil =>
    intro F s0 hF _
    exact ⟨hF, fun j _ => by simp [exportLoop]⟩
  | cons c bc ih =>
    intro F s0 hF hlen
    have hc : c.length = n := hlen c (List.mem_cons_self _ _)
    have hz : (vecAdd (zeroVec n) c).length = n := by
      simp [vecAdd, zeroVec, hc]
    have hF2 : (vecAdd F (vecAdd (zeroVec n) c)).length = n := by
      simp [vecAdd, hF, hz, zeroVec, hc]
    have hstep : exportLoop n (c :: bc) (F, s0) =
        exportLoop n bc
          (vecAdd F (vecAdd (zeroVec n) c), vecAdd (zeroVec n) c) := rfl
    rw [hstep]
    rcases ih _ (vecAdd (zeroVec n) c) hF2
      (fun c2 hc2 => hlen c2 (List.mem_cons_of_mem _ hc2)) with ⟨hl, hg⟩
    refine ⟨hl, fun j hj => ?_⟩
    rw [hg j hj, vecAdd_getD F _ j (by omega) (by omega),
      vecAdd_getD (zeroVec n) c j (by simp [zeroVec]; omega) (by omega)]
    simp only [List.map_cons, List.sum_cons, zeroVec, getD_replicate_zero]
    omega

theorem exportLoop_indep (n : Nat) (bc : List (List Int))
    (F s0 s0' : List Int) :
    (exportLoop n bc (F, s0)).1 = (exportLoop n bc (F, s0')).1 := by
  cases bc with
  | nil => rfl
  | cons c bc => rfl

theorem importInsert_getD (srcMap : BlockMap) (src : List Int)
    (dstMap : BlockMap) (dst : List Int) (i : Nat) (hi : i < dstMap.numEl) :
    (importInsert srcMap src dstMap dst).getD i 0 =
      match srcMap.lidOpt (dstMap.GID i) with
      | some j => src.getD j 0
      | none => dst.getD i 0 := by
  rw [importInsert, List.getD_eq_getElem?_getD, List.getElem?_map,
    List.getElem?_range hi]
  simp

/-- Claim C8 (amended): exportData zeroes the internal contact-force
accumulator and each block's scratch accumulator before use (so no
contribution of a previous call leaks in), accumulates every contact block's
per-point contribution, sums the contributions of all blocks, and writes —
overwrites, with the Insert combine mode, rather than accumulating — the
summed result by global ID over the caller's owned-only force buffer; caller
entries whose global ID the contact map does not own keep their previous
value. -/
theorem export_contact_forces_overwrite (cm mm : BlockMap)
    (bc : List (List Int)) (caller p1 s1 p2 s2 : List Int) (i j : Nat)
    (hlen : ∀ c ∈ bc, c.length = cm.numEl) (hj : j < cm.numEl)
    (hi : i < mm.numEl) :
    (exportData cm mm bc caller p1 s1).1.getD j 0 =
        (bc.map (fun c => c.getD j 0)).sum ∧
      (exportData cm mm bc caller p1 s1).2.2.getD i 0 =
        (match cm.lidOpt (mm.GID i) with
          | some k =>
            (exportData cm mm bc caller p1 s1).1.getD k 0
          | none => caller.getD i 0) ∧
      (exportData cm mm bc caller p1 s1).1 =
        (exportData cm mm bc caller p2 s2).1 ∧
      (exportData cm mm bc caller p1 s1).2.2 =
        (exportData cm mm bc caller p2 s2).2.2 := by
  have hspec := exportLoop_spec cm.numEl bc (zeroVec cm.numEl) s1
    (by simp [zeroVec]) hlen
  refine ⟨?_, ?_, ?_, ?_⟩
  · show (exportLoop cm.numEl bc (zeroVec cm.numEl, s1)).1.getD j 0 = _
    rw [hspec.2 j hj]
    simp [zeroVec, getD_replicate_zero]
  · show (importInsert cm (exportLoop cm.numEl bc
      (zeroVec cm.numEl, s1)).1 mm caller).getD i 0 = _
    rw [importInsert_getD cm _ mm caller i hi]
    rfl
  · exact exportLoop_indep cm.numEl bc (zeroVec cm.numEl) s1 s2
  · show importInsert cm (exportLoop cm.numEl bc
        (zeroVec cm.numEl, s1)).1 mm caller =
      importInsert cm (exportLoop cm.numEl bc
        (zeroVec cm.numEl, s2)).1 mm caller
    rw [exportLoop_indep cm.numEl bc (zeroVec cm.numEl) s1 s2]

theorem export_contact_forces_overwrite_witness :
    (exportData (pointMap [0]) (pointMap [0]) [[2]] [5] [0] [0]).1.getD 0 0 =
        (([[2]] : List (List Int)).map (fun c => c.getD 0 0)).sum ∧
      (exportData (pointMap [0]) (pointMap [0]) [[2]] [5] [0] [0]).2.2.getD 0 0 =
        (match (pointMap [0]).lidOpt ((pointMap [0]).GID 0) with
          | some k =>
            (exportData (pointMap [0]) (pointMap [0]) [[2]] [5] [0] [0]).1.getD k 0
          | none => ([5] : List Int).getD 0 0) ∧
      (exportData (pointMap [0]) (pointMap [0]) [[2]] [5] [0] [0]).1 =
        (exportData (pointMap [0]) (pointMap [0]) [[2]] [5] [1] [1]).1 ∧
      (exportData (pointMap [0]) (pointMap [0]) [[2]] [5] [0] [0]).2.2 =
        (exportData (pointMap [0]) (pointMap [0]) [[2]] [5] [1] [1]).2.2 :=
  export_contact_forces_overwrite (pointMap [0]) (pointMap [0]) [[2]] [5]
    [0] [0] [1] [1] 0 0 (by decide) (by decide) (by decide)

/-- Claim C8 as stated is false for the final export step: with caller force
buffer [5] and one contact block contributing [2], exportData leaves the
caller's buffer at [2] — the summed block contribution replaces the entry
with the matching global ID (Insert combine mode) — not at the accumulated
value [7]. -/
theorem export_contact_forces_no_accumulate :
    (exportData (pointMap [0]) (pointMap [0]) [[2]] [5] [0] [0]).2.2 = [2] ∧
      ([2] : List Int) ≠ [5 + 2] := by
  decide
